import Mathlib

/-!
Verification of the search-go repository: two command-line tools,
a loader (cmd/load-books) that creates an index and bulk-loads
newline-delimited JSON book records, and a searcher (cmd/search-books)
that issues a multi-field match query and prints the ranked hits.

The development shallowly embeds the relevant behaviour:
the JSON values exchanged on the wire, the Go encoding/json
marshalling and unmarshalling of the Book record, the line-splitting
behaviour of bufio Reader ReadBytes, the control flow of both main
functions, and the response decoding and output formatting of the
searcher.  External collaborators (the search engine, the HTTP
transport, environment loading) are modelled as oracles: a call
either reports an error or succeeds, as seen by the calling code.
-/

/-- JSON values.  Numbers are modelled as rationals: every numeric
literal of the JSON grammar denotes a rational, and the Go float64
values decoded from them are displayed through a fixed-point
formatter defined below. -/
inductive Json where
  | null : Json
  | bool : Bool → Json
  | num : ℚ → Json
  | str : String → Json
  | arr : List Json → Json
  | obj : List (String × Json) → Json
deriving Repr

/-- JSON insignificant whitespace, as accepted by encoding/json. -/
def isJsonWs (c : Char) : Bool :=
  c = ' ' || c = '\t' || c = '\n' || c = '\r'

/-- Drop leading JSON whitespace. -/
def skipWs : List Char → List Char
  | [] => []
  | c :: cs => if isJsonWs c then skipWs cs else c :: cs

/-- Value of one hexadecimal digit, as read by the \u escape of
encoding/json. -/
def hexVal (c : Char) : Option Nat :=
  if '0' ≤ c ∧ c ≤ '9' then some (c.toNat - 48)
  else if 'a' ≤ c ∧ c ≤ 'f' then some (c.toNat - 87)
  else if 'A' ≤ c ∧ c ≤ 'F' then some (c.toNat - 55)
  else none

/-- Value of a four-digit hexadecimal escape payload. -/
def hex4 (a b c d : Char) : Option Nat :=
  match hexVal a, hexVal b, hexVal c, hexVal d with
  | some x, some y, some z, some w => some (((x * 16 + y) * 16 + z) * 16 + w)
  | _, _, _, _ => none

/-- Unicode code point to character; an invalid code point (a lone
surrogate) becomes U+FFFD, as in the Go rune decoder. -/
def codeToChar (n : Nat) : Char :=
  if h : n.isValidChar then Char.ofNatAux n h else Char.ofNat 0xFFFD

/-- Prepend a character to the string component of a string-parser
result. -/
def consR (c : Char) : Option (List Char × List Char) → Option (List Char × List Char)
  | some (s, t) => some (c :: s, t)
  | none => none

/-- Body of a JSON string literal, after the opening quote: returns
the decoded characters and the input following the closing quote.
Escape handling follows encoding/json: the eight short escapes and
\uXXXX, with surrogate pairs combined and unpaired surrogates
replaced by U+FFFD; raw control characters below 0x20 are rejected.
The fuel argument only bounds the recursion depth: every recursive
call consumes at least one input character, so any fuel beyond the
input length never runs out. -/
def parseStrAux : Nat → List Char → Option (List Char × List Char)
  | 0, _ => none
  | _ + 1, [] => none
  | fuel + 1, c :: rest =>
    if c = '"' then some ([], rest)
    else if c = '\\' then
      match rest with
      | [] => none
      | e :: r =>
        if e = '"' then consR '"' (parseStrAux fuel r)
        else if e = '\\' then consR '\\' (parseStrAux fuel r)
        else if e = '/' then consR '/' (parseStrAux fuel r)
        else if e = 'b' then consR (Char.ofNat 8) (parseStrAux fuel r)
        else if e = 'f' then consR (Char.ofNat 12) (parseStrAux fuel r)
        else if e = 'n' then consR '\n' (parseStrAux fuel r)
        else if e = 'r' then consR '\r' (parseStrAux fuel r)
        else if e = 't' then consR '\t' (parseStrAux fuel r)
        else if e = 'u' then
          match r with
          | h1 :: h2 :: h3 :: h4 :: r2 =>
            match hex4 h1 h2 h3 h4 with
            | none => none
            | some code =>
              if 0xD800 ≤ code ∧ code < 0xDC00 then
                match r2 with
                | b1 :: b2 :: g1 :: g2 :: g3 :: g4 :: r3 =>
                  if b1 = '\\' ∧ b2 = 'u' then
                    match hex4 g1 g2 g3 g4 with
                    | none => none
                    | some code2 =>
                      if 0xDC00 ≤ code2 ∧ code2 < 0xE000 then
                        consR (codeToChar (0x10000 + (code - 0xD800) * 0x400 + (code2 - 0xDC00)))
                          (parseStrAux fuel r3)
                      else consR (Char.ofNat 0xFFFD) (parseStrAux fuel r2)
                  else consR (Char.ofNat 0xFFFD) (parseStrAux fuel r2)
                | _ => consR (Char.ofNat 0xFFFD) (parseStrAux fuel r2)
              else consR (codeToChar code) (parseStrAux fuel r2)
          | _ => none
        else none
    else if c.toNat < 32 then none
    else consR c (parseStrAux fuel rest)

/-- Parse the body of a JSON string literal, with fuel that always
suffices: one more than the length of the input. -/
def parseStr (cs : List Char) : Option (List Char × List Char) :=
  parseStrAux (cs.length + 1) cs

/-- Longest prefix of decimal digits, and the rest of the input. -/
def takeDigits : List Char → List Char × List Char
  | [] => ([], [])
  | c :: cs =>
    if c.isDigit then
      let p := takeDigits cs
      (c :: p.1, p.2)
    else ([], c :: cs)

/-- Numeric value of a digit string. -/
def digitsToNat : List Char → Nat → Nat
  | [], acc => acc
  | c :: cs, acc => digitsToNat cs (acc * 10 + (c.toNat - 48))

/-- JSON number literal: optional minus, integer part without a
leading zero, optional fraction, optional exponent; its exact
rational value and the remaining input. -/
def parseNumber (input : List Char) : Option (ℚ × List Char) :=
  let sr : Bool × List Char :=
    match input with
    | '-' :: r => (true, r)
    | _ => (false, input)
  match takeDigits sr.2 with
  | ([], _) => none
  | (ds, r2) =>
    if 2 ≤ ds.length ∧ ds.head? = some '0' then none
    else
      let fr : Option (Nat × Nat × List Char) :=
        match r2 with
        | '.' :: r3 =>
          match takeDigits r3 with
          | ([], _) => none
          | (fs, r4) => some (digitsToNat fs 0, fs.length, r4)
        | _ => some (0, 0, r2)
      match fr with
      | none => none
      | some (fracVal, fracLen, r5) =>
        let ex : Option (Int × List Char) :=
          match r5 with
          | 'e' :: r6 | 'E' :: r6 =>
            match r6 with
            | '+' :: r7 =>
              match takeDigits r7 with
              | ([], _) => none
              | (es, r8) => some ((digitsToNat es 0 : Int), r8)
            | '-' :: r7 =>
              match takeDigits r7 with
              | ([], _) => none
              | (es, r8) => some (-(digitsToNat es 0 : Int), r8)
            | _ =>
              match takeDigits r6 with
              | ([], _) => none
              | (es, r8) => some ((digitsToNat es 0 : Int), r8)
          | _ => some (0, r5)
        match ex with
        | none => none
        | some (e, r9) =>
          let mag : ℚ :=
            ((digitsToNat ds 0 : ℚ) + (fracVal : ℚ) / (10 : ℚ) ^ fracLen) * (10 : ℚ) ^ e
          some (if sr.1 then -mag else mag, r9)

/-- The three recursion modes of the JSON value grammar: a value, the
items of an array being collected, or the members of an object being
collected. -/
inductive ParseKind where
  | val : ParseKind
  | arrItems : List Json → ParseKind
  | objMembers : List (String × Json) → ParseKind

/-- The recursive descent over the JSON value grammar, in one fuelled
function: in mode val it parses whitespace and then one literal,
string, number, array or object; in the two collection modes it
parses the comma-separated items of an array or members of an object
up to the closing bracket or brace.  Every recursive call consumes
at least one input character, so any fuel beyond the input length
never runs out. -/
def parseCore : Nat → ParseKind → List Char → Option (Json × List Char)
  | 0, _, _ => none
  | fuel + 1, ParseKind.val, input =>
    match skipWs input with
    | [] => none
    | c :: r =>
      if c = 'n' then
        match r with
        | u1 :: u2 :: u3 :: r2 =>
          if u1 = 'u' ∧ u2 = 'l' ∧ u3 = 'l' then some (Json.null, r2) else none
        | _ => none
      else if c = 't' then
        match r with
        | u1 :: u2 :: u3 :: r2 =>
          if u1 = 'r' ∧ u2 = 'u' ∧ u3 = 'e' then some (Json.bool true, r2) else none
        | _ => none
      else if c = 'f' then
        match r with
        | u1 :: u2 :: u3 :: u4 :: r2 =>
          if u1 = 'a' ∧ u2 = 'l' ∧ u3 = 's' ∧ u4 = 'e' then some (Json.bool false, r2)
          else none
        | _ => none
      else if c = '"' then
        match parseStr r with
        | some (s, r2) => some (Json.str (String.mk s), r2)
        | none => none
      else if c = '[' then
        match skipWs r with
        | [] => none
        | c2 :: r2 =>
          if c2 = ']' then some (Json.arr [], r2)
          else parseCore fuel (ParseKind.arrItems []) (c2 :: r2)
      else if c = '\x7b' then
        match skipWs r with
        | [] => none
        | c2 :: r2 =>
          if c2 = '\x7d' then some (Json.obj [], r2)
          else parseCore fuel (ParseKind.objMembers []) (c2 :: r2)
      else if c = '-' ∨ c.isDigit then
        match parseNumber (c :: r) with
        | some (q, r2) => some (Json.num q, r2)
        | none => none
      else none
  | fuel + 1, ParseKind.arrItems acc, input =>
    match parseCore fuel ParseKind.val input with
    | none => none
    | some (v, r) =>
      match skipWs r with
      | [] => none
      | c :: r2 =>
        if c = ',' then parseCore fuel (ParseKind.arrItems (acc ++ [v])) r2
        else if c = ']' then some (Json.arr (acc ++ [v]), r2)
        else none
  | fuel + 1, ParseKind.objMembers acc, input =>
    match skipWs input with
    | [] => none
    | c :: r =>
      if c = '"' then
        match parseStr r with
        | none => none
        | some (k, r2) =>
          match skipWs r2 with
          | [] => none
          | c2 :: r3 =>
            if c2 = ':' then
              match parseCore fuel ParseKind.val r3 with
              | none => none
              | some (v, r4) =>
                match skipWs r4 with
                | [] => none
                | c3 :: r5 =>
                  if c3 = ',' then
                    parseCore fuel (ParseKind.objMembers (acc ++ [(String.mk k, v)])) r5
                  else if c3 = '\x7d' then
                    some (Json.obj (acc ++ [(String.mk k, v)]), r5)
                  else none
            else none
      else none

/-- Parse one JSON value from the input. -/
def parseValue (fuel : Nat) (input : List Char) : Option (Json × List Char) :=
  parseCore fuel ParseKind.val input

/-- Parse a whole character stream as a single JSON value followed by
whitespace only, as encoding/json Unmarshal requires.  The fuel bound
exceeds any nesting depth the input can express, since every level of
nesting consumes at least one character. -/
def parseJsonList (cs : List Char) : Option Json :=
  match parseValue (cs.length + 5) cs with
  | some (v, rest) => if skipWs rest = [] then some v else none
  | none => none

/-- String form of the whole-input parse. -/
def parseJsonString (s : String) : Option Json :=
  parseJsonList s.toList

/-- Lowercase hexadecimal digit, as emitted by encoding/json. -/
def hexDigitChar (n : Nat) : Char :=
  if n < 10 then Char.ofNat (48 + n) else Char.ofNat (87 + n)

/-- Escape one character the way the Go encoder (with its default
HTML escaping) writes it inside a JSON string: quote and backslash
get short escapes, as do newline, carriage return and tab; the HTML
characters and the remaining control characters become \u00XX; the
line separators U+2028 and U+2029 become their six-character escape forms; every
other character is written literally. -/
def escapeChar (c : Char) : List Char :=
  if c = '"' then ['\\', '"']
  else if c = '\\' then ['\\', '\\']
  else if c = '\n' then ['\\', 'n']
  else if c = '\r' then ['\\', 'r']
  else if c = '\t' then ['\\', 't']
  else if c = '<' ∨ c = '>' ∨ c = '&' then
    ['\\', 'u', '0', '0', hexDigitChar (c.toNat / 16), hexDigitChar (c.toNat % 16)]
  else if c.toNat < 32 then
    ['\\', 'u', '0', '0', hexDigitChar (c.toNat / 16), hexDigitChar (c.toNat % 16)]
  else if c.toNat = 0x2028 ∨ c.toNat = 0x2029 then
    ['\\', 'u', '2', '0', '2', hexDigitChar (c.toNat % 16)]
  else [c]

/-- Escape a whole character sequence. -/
def escapeList : List Char → List Char
  | [] => []
  | c :: cs => escapeChar c ++ escapeList cs

/-- A JSON string literal for s, quotes included, as the Go encoder
writes it. -/
def encodeGoString (s : String) : List Char :=
  '"' :: escapeList s.toList ++ ['"']

/-- The Book record of both main packages: three string fields with
JSON tags title, url and description. -/
structure Book where
  title : String
  url : String
  description : String
deriving Repr, DecidableEq

/-- The bytes json.Marshal produces for a Book: an object with
exactly the keys title, url and description, in the declaration
order of the struct fields. -/
def marshalBook (b : Book) : List Char :=
  "\x7b\"title\":".toList ++ encodeGoString b.title
    ++ ",\"url\":".toList ++ encodeGoString b.url
    ++ ",\"description\":".toList ++ encodeGoString b.description
    ++ ['\x7d']

/-- Case-insensitive key comparison, the field matching rule of
encoding/json (ASCII folding; the three field names are ASCII). -/
def foldEq (a b : String) : Bool :=
  a.toList.map Char.toLower == b.toList.map Char.toLower

/-- Store one object member into a partially decoded Book, following
the Unmarshal rules for string fields: a matching key takes a JSON
string (null leaves the field unchanged, any other type is an
error), keys matching no field are ignored, later duplicates
overwrite earlier ones. -/
def setField (b : Book) (key : String) (v : Json) : Option Book :=
  if foldEq key "title" then
    match v with
    | Json.str s => some { b with title := s }
    | Json.null => some b
    | _ => none
  else if foldEq key "url" then
    match v with
    | Json.str s => some { b with url := s }
    | Json.null => some b
    | _ => none
  else if foldEq key "description" then
    match v with
    | Json.str s => some { b with description := s }
    | Json.null => some b
    | _ => none
  else some b

/-- Fold all object members into the Book, in order. -/
def decodeBookFields : Book → List (String × Json) → Option Book
  | b, [] => some b
  | b, (k, v) :: rest =>
    match setField b k v with
    | none => none
    | some b2 => decodeBookFields b2 rest

/-- Decode a JSON value into a fresh Book the way json.Unmarshal
fills a zero Book value: an object is folded field by field, null
leaves the zero value, anything else is a type error. -/
def decodeBook (j : Json) : Option Book :=
  match j with
  | Json.obj fields => decodeBookFields (Book.mk "" "" "") fields
  | Json.null => some (Book.mk "" "" "")
  | _ => none

/-- json.Unmarshal of one input line into a Book: the whole line
must be one JSON value (surrounded only by whitespace), and that
value must decode as a Book. -/
def unmarshalBook (line : List Char) : Option Book :=
  match parseJsonList line with
  | some j => decodeBook j
  | none => none

/-- The line discipline of the loader: bufio ReadBytes with the
newline delimiter yields each complete line including its trailing
newline; a final chunk with no newline is returned together with the
end-of-file condition.  splitLines gives the complete lines and that
final unterminated remainder. -/
def splitLines : List Char → List (List Char) × List Char
  | [] => ([], [])
  | c :: cs =>
    let p := splitLines cs
    if c = '\n' then (['\n'] :: p.1, p.2)
    else
      match p.1 with
      | [] => ([], c :: p.2)
      | l :: ls => ((c :: l) :: ls, p.2)

/-- Outcome the bulk-write subsystem reports for one submitted item:
success, a Go-level error, or a per-item response error carrying a
type and a reason. -/
inductive BulkItemOutcome where
  | success
  | goError (msg : String)
  | respError (etype reason : String)

/-- The log lines the OnFailure callback of the loader writes for
one item outcome. -/
def onFailureLog : BulkItemOutcome → List String
  | .success => []
  | .goError m => ["ERROR: " ++ m]
  | .respError t r => ["ERROR: " ++ t ++ ": " ++ r]

/-- The read-decode-submit loop of the loader over the complete
lines, starting at line index i: returns the bulk item bodies
submitted in order, the per-item failure log lines, and the index of
the first line whose decode failed, if any.  A decode failure stops
the loop at once; a per-item bulk failure only logs. -/
def loadLoop (outcome : Nat → BulkItemOutcome) : Nat → List (List Char) → List (List Char) × List String × Option Nat
  | _, [] => ([], [], none)
  | i, line :: rest =>
    match unmarshalBook line with
    | none => ([], [], some i)
    | some book =>
      let p := loadLoop outcome (i + 1) rest
      (marshalBook book :: p.1, onFailureLog (outcome i) ++ p.2.1, p.2.2)

/-- How a loader process terminates. -/
inductive LoadResult where
  | fatalEnv
  | fatalClient
  | fatalIndexCreate
  | fatalFileOpen
  | fatalDecode (lineIndex : Nat)
  | fatalClose
  | completed
deriving Repr, DecidableEq

/-- The environment of one loader run: whether the env file loads,
whether the client builds, the error the index-creation call
reports (if any), whether the input file opens, its contents, the
per-item bulk outcome reported by the indexer, and whether the final
flush-and-close succeeds. -/
structure LoaderInput where
  envLoadOk : Bool
  clientOk : Bool
  createIndexError : Option String
  fileOpenOk : Bool
  fileContents : List Char
  itemOutcome : Nat → BulkItemOutcome
  closeOk : Bool

/-- Observable outcome of a loader run: how the process ended, the
bulk item bodies submitted in order, and the per-item failure log
lines. -/
structure LoaderRun where
  result : LoadResult
  submitted : List (List Char)
  failureLogs : List String
deriving Repr, DecidableEq

/-- The main function of cmd/load-books: load env, build the client,
create the index (fatal on a reported error), open the file, then
run the read-decode-submit loop and finally close the bulk indexer. -/
def runLoader (inp : LoaderInput) : LoaderRun :=
  if inp.envLoadOk = false then ⟨.fatalEnv, [], []⟩
  else if inp.clientOk = false then ⟨.fatalClient, [], []⟩
  else
    match inp.createIndexError with
    | some _ => ⟨.fatalIndexCreate, [], []⟩
    | none =>
      if inp.fileOpenOk = false then ⟨.fatalFileOpen, [], []⟩
      else
        let p := loadLoop inp.itemOutcome 0 (splitLines inp.fileContents).1
        match p.2.2 with
        | some i => ⟨.fatalDecode i, p.1, p.2.1⟩
        | none =>
          if inp.closeOk then ⟨.completed, p.1, p.2.1⟩
          else ⟨.fatalClose, p.1, p.2.1⟩

/-- The request body the searcher of cmd/search-books builds: the
raw query string is substituted into the fixed multi-match template
by Sprintf, with no escaping. -/
def searchQueryBody (q : String) : String :=
  " \x7b\n\t   \"query\": \x7b\n\t   \t\"multi_match\":\x7b\n\t\t  \"query\":\"" ++ q
    ++ "\",\n\t\t  \"fields\": [ \"title\", \"url\", \"description\" ]\n\t\t\x7d\n\t   \x7d,\n\t   \"size\": 10\n\t\x7d"

/-- How far a searcher invocation gets before its first fatal
condition or its request submission. -/
inductive SearchStage where
  | usageError
  | fatalEnv
  | fatalClient
  | submitted (body : String)
deriving Repr, DecidableEq

/-- The startup control flow of cmd/search-books: an empty query
flag is fatal with a usage message before the env file is read or
any client is built; otherwise the multi-match request body is built
and submitted. -/
def runSearch (q : String) (envLoadOk clientOk : Bool) : SearchStage :=
  if q = "" then .usageError
  else if envLoadOk = false then .fatalEnv
  else if clientOk = false then .fatalClient
  else .submitted (searchQueryBody q)

/-- Decode a JSON value into an existing Book value, the way
Unmarshal fills a struct field: an object folds member by member
into the current value, null leaves it unchanged, anything else is a
type error. -/
def decodeBookInto (b : Book) : Json → Option Book
  | Json.obj fields => decodeBookFields b fields
  | Json.null => some b
  | _ => none

/-- One element of the hits array of the search response: the Book
under the _source key and the relevance score under _score. -/
structure BookHit where
  book : Book
  score : ℚ
deriving Repr, DecidableEq

/-- The wrapper object under the hits key of the search response,
holding the hits array. -/
structure BookHitList where
  hits : List BookHit
deriving Repr, DecidableEq

/-- The decoded shape of the search response consumed by the
searcher: the took timing value and the nested hit list. -/
structure BookSearchResponse where
  took : ℚ
  hits : BookHitList
deriving Repr, DecidableEq

/-- Store one object member into a partially decoded hit, following
the Unmarshal rules: _source decodes as a Book, _score takes a JSON
number (null leaves either unchanged), unknown keys are ignored. -/
def setHitField (h : BookHit) (key : String) (v : Json) : Option BookHit :=
  if foldEq key "_source" then
    match decodeBookInto h.book v with
    | some b => some { h with book := b }
    | none => none
  else if foldEq key "_score" then
    match v with
    | Json.num q => some { h with score := q }
    | Json.null => some h
    | _ => none
  else some h

/-- Fold all object members into the hit, in order. -/
def decodeHitFields : BookHit → List (String × Json) → Option BookHit
  | h, [] => some h
  | h, (k, v) :: rest =>
    match setHitField h k v with
    | none => none
    | some h2 => decodeHitFields h2 rest

/-- Decode one element of the hits array into a zero hit value. -/
def decodeHit (j : Json) : Option BookHit :=
  match j with
  | Json.obj fields => decodeHitFields (BookHit.mk (Book.mk "" "" "") 0) fields
  | Json.null => some (BookHit.mk (Book.mk "" "" "") 0)
  | _ => none

/-- Decode the elements of the hits array in order; an element error
is an error for the whole decode. -/
def decodeHitItems : List Json → Option (List BookHit)
  | [] => some []
  | j :: rest =>
    match decodeHit j with
    | none => none
    | some h =>
      match decodeHitItems rest with
      | none => none
      | some l => some (h :: l)

/-- Store one object member into the hit-list wrapper: the hits key
takes a JSON array of hits (null leaves the nil slice), unknown keys
are ignored. -/
def setHitListField (hl : BookHitList) (key : String) (v : Json) : Option BookHitList :=
  if foldEq key "hits" then
    match v with
    | Json.arr items =>
      match decodeHitItems items with
      | some l => some { hl with hits := l }
      | none => none
    | Json.null => some hl
    | _ => none
  else some hl

/-- Fold all object members into the hit-list wrapper, in order. -/
def decodeHitListFields : BookHitList → List (String × Json) → Option BookHitList
  | hl, [] => some hl
  | hl, (k, v) :: rest =>
    match setHitListField hl k v with
    | none => none
    | some hl2 => decodeHitListFields hl2 rest

/-- Decode a JSON value into the hit-list wrapper. -/
def decodeHitListInto (hl : BookHitList) : Json → Option BookHitList
  | Json.obj fields => decodeHitListFields hl fields
  | Json.null => some hl
  | _ => none

/-- Store one object member into the response: took takes a number,
hits decodes as the wrapper, unknown keys are ignored. -/
def setRespField (r : BookSearchResponse) (key : String) (v : Json) : Option BookSearchResponse :=
  if foldEq key "took" then
    match v with
    | Json.num q => some { r with took := q }
    | Json.null => some r
    | _ => none
  else if foldEq key "hits" then
    match decodeHitListInto r.hits v with
    | some hl => some { r with hits := hl }
    | none => none
  else some r

/-- Fold all object members into the response, in order. -/
def decodeRespFields : BookSearchResponse → List (String × Json) → Option BookSearchResponse
  | r, [] => some r
  | r, (k, v) :: rest =>
    match setRespField r k v with
    | none => none
    | some r2 => decodeRespFields r2 rest

/-- Decode the response body of a search into the shape the searcher
consumes, filling a zero response value as json Decode does. -/
def decodeBookSearchResponse (j : Json) : Option BookSearchResponse :=
  match j with
  | Json.obj fields => decodeRespFields (BookSearchResponse.mk 0 (BookHitList.mk [])) fields
  | Json.null => some (BookSearchResponse.mk 0 (BookHitList.mk []))
  | _ => none

/-- Left-pad the decimal form of n with zeros to six digits, for the
fractional part of the fixed-point format. -/
def padZeros6 (n : Nat) : String :=
  String.mk (List.replicate (6 - (toString n).length) '0') ++ toString n

/-- Fixed-point rendering with six fractional digits, the format the
verb %f of the fmt package produces for a float64 score.  The score
is modelled as the rational the response carried; no binary float64
value lies exactly on a rounding tie at six decimal places, so
nearest rounding with ties away from zero agrees with the Go
formatter on every representable score. -/
def formatFixed6 (q : ℚ) : String :=
  let n : Nat := (Int.floor (|q| * 1000000 + 1 / 2)).toNat
  (if q < 0 then "-" else "")
    ++ toString (n / 1000000) ++ "." ++ padZeros6 (n % 1000000)

/-- The output line the searcher prints for one hit. -/
def formatHit (h : BookHit) : String :=
  h.book.title ++ ", " ++ h.book.url ++ " with score of " ++ formatFixed6 h.score

/-- The print loop of the searcher: one line per hit, in the order
of the decoded hit sequence. -/
def printHits (r : BookSearchResponse) : List String :=
  r.hits.hits.map formatHit

/-- The JSON value the canonical encoding of a Book denotes: an
object with exactly the keys title, url and description, in struct
field order, each holding the corresponding string. -/
def bookJson (b : Book) : Json :=
  Json.obj [("title", Json.str b.title), ("url", Json.str b.url),
    ("description", Json.str b.description)]

theorem hexVal_hexDigitChar : ∀ n, n < 16 → hexVal (hexDigitChar n) = some n := by decide

theorem codeToChar_toNat (c : Char) : codeToChar c.toNat = c := by
  have h : c.toNat.isValidChar := c.valid
  rw [codeToChar, dif_pos h]
  have h2 : Char.ofNatAux c.toNat h = Char.ofNat c.toNat := by
    simp [Char.ofNat, dif_pos h]
  rw [h2, Char.ofNat_toNat]

theorem hex4_00 (n : Nat) (h : n < 256) :
    hex4 '0' '0' (hexDigitChar (n / 16)) (hexDigitChar (n % 16)) = some n := by
  have h1 : n / 16 < 16 := by omega
  have h2 : n % 16 < 16 := Nat.mod_lt _ (by norm_num)
  have e0 : hexVal '0' = some 0 := by decide
  rw [hex4, e0, hexVal_hexDigitChar _ h1, hexVal_hexDigitChar _ h2]
  simp only []
  congr 1
  omega

/-- Each character escapes to at least one character. -/
theorem escapeList_length (s : List Char) : s.length ≤ (escapeList s).length := by
  induction s with
  | nil => simp [escapeList]
  | cons c cs ih =>
    rw [escapeList, List.length_append, List.length_cons]
    have : 1 ≤ (escapeChar c).length := by
      rw [escapeChar]
      split_ifs <;> simp
    omega

/-- Round trip of the string escaping: the parser reads back exactly
the characters the Go encoder escaped, leaving the input after the
closing quote untouched. -/
theorem parseStrAux_escape :
    ∀ (s : List Char) (rest : List Char) (fuel : Nat), s.length < fuel →
      parseStrAux fuel (escapeList s ++ '"' :: rest) = some (s, rest) := by
  intro s
  induction s with
  | nil =>
    intro rest fuel hf
    obtain ⟨f, rfl⟩ : ∃ f, fuel = f + 1 := ⟨fuel - 1, by omega⟩
    simp [escapeList, parseStrAux]
  | cons c cs ih =>
    intro rest fuel hf
    obtain ⟨f, rfl⟩ : ∃ f, fuel = f + 1 := ⟨fuel - 1, by omega⟩
    have hcs : cs.length < f := by
      simp only [List.length_cons] at hf
      omega
    have ihf := ih rest f hcs
    rw [escapeList, List.append_assoc]
    rw [escapeChar]
    split_ifs with h1 h2 h3 h4 h5 h6 h7 h8
    · subst h1
      simp [parseStrAux, consR, ihf]
    · subst h2
      simp [parseStrAux, consR, ihf]
    · subst h3
      simp [parseStrAux, consR, ihf]
    · subst h4
      simp [parseStrAux, consR, ihf]
    · subst h5
      simp [parseStrAux, consR, ihf]
    · rcases h6 with h | h | h <;> subst h <;>
        simp [parseStrAux, hex4, hexVal, hexDigitChar, consR, ihf,
          show codeToChar 60 = '<' by decide, show codeToChar 62 = '>' by decide,
          show codeToChar 38 = '&' by decide]
    · have h256 : c.toNat < 256 := by omega
      have hx := hex4_00 c.toNat h256
      have hnosur : ¬(0xD800 ≤ c.toNat ∧ c.toNat < 0xDC00) := by omega
      simp [parseStrAux, hx, hnosur, consR, ihf, codeToChar_toNat]
    · rcases h8 with h | h
      · have hx : hex4 '2' '0' '2' (hexDigitChar (c.toNat % 16)) = some c.toNat := by
          rw [h]
          decide
        have hnosur : ¬(0xD800 ≤ c.toNat ∧ c.toNat < 0xDC00) := by omega
        simp [parseStrAux, hx, hnosur, consR, ihf, codeToChar_toNat]
      · have hx : hex4 '2' '0' '2' (hexDigitChar (c.toNat % 16)) = some c.toNat := by
          rw [h]
          decide
        have hnosur : ¬(0xD800 ≤ c.toNat ∧ c.toNat < 0xDC00) := by omega
        simp [parseStrAux, hx, hnosur, consR, ihf, codeToChar_toNat]
    · simp [parseStrAux, h1, h2, h7, consR, ihf]

theorem parseStr_escape (s : List Char) (x : List Char) :
    parseStr (escapeList s ++ '"' :: x) = some (s, x) := by
  rw [parseStr]
  apply parseStrAux_escape
  have := escapeList_length s
  simp only [List.length_append, List.length_cons]
  omega

theorem parseStr_key_title (x : List Char) :
    parseStr ('t' :: 'i' :: 't' :: 'l' :: 'e' :: '"' :: x) = some (['t', 'i', 't', 'l', 'e'], x) := by
  rw [parseStr]
  simp only [List.length_cons]
  have hf : x.length + 1 + 1 + 1 + 1 + 1 + 1 + 1 = (x.length + 1) + 6 := by omega
  rw [hf]
  simp [parseStrAux, consR]

theorem parseStr_key_url (x : List Char) :
    parseStr ('u' :: 'r' :: 'l' :: '"' :: x) = some (['u', 'r', 'l'], x) := by
  rw [parseStr]
  simp only [List.length_cons]
  have hf : x.length + 1 + 1 + 1 + 1 + 1 = (x.length + 1) + 4 := by omega
  rw [hf]
  simp [parseStrAux, consR]

theorem parseStr_key_description (x : List Char) :
    parseStr ('d' :: 'e' :: 's' :: 'c' :: 'r' :: 'i' :: 'p' :: 't' :: 'i' :: 'o' :: 'n' :: '"' :: x)
      = some (['d', 'e', 's', 'c', 'r', 'i', 'p', 't', 'i', 'o', 'n'], x) := by
  rw [parseStr]
  simp only [List.length_cons]
  have hf : x.length + 1 + 1 + 1 + 1 + 1 + 1 + 1 + 1 + 1 + 1 + 1 + 1 + 1 = (x.length + 1) + 12 := by
    omega
  rw [hf]
  simp [parseStrAux, consR]

/-- Parsing the canonical encoding of a Book yields exactly the
three-key object, consuming the whole input; any fuel reserve
works. -/
theorem parseCore_marshalBook (b : Book) (fuel : Nat) :
    parseCore (fuel + 5) ParseKind.val (marshalBook b) = some (bookJson b, []) := by
  simp only [marshalBook, encodeGoString,
    show ("\x7b\"title\":".toList = ['\x7b', '"', 't', 'i', 't', 'l', 'e', '"', ':']) from rfl,
    show (",\"url\":".toList = [',', '"', 'u', 'r', 'l', '"', ':']) from rfl,
    show (",\"description\":".toList = [',', '"', 'd', 'e', 's', 'c', 'r', 'i', 'p', 't', 'i', 'o', 'n', '"', ':']) from rfl,
    List.cons_append, List.append_assoc, List.nil_append]
  simp [parseCore, skipWs, isJsonWs, consR, bookJson,
    parseStr_key_title, parseStr_key_url, parseStr_key_description,
    parseStr_escape,
    show (String.mk ['t', 'i', 't', 'l', 'e'] = "title") from rfl,
    show (String.mk ['u', 'r', 'l'] = "url") from rfl,
    show (String.mk ['d', 'e', 's', 'c', 'r', 'i', 'p', 't', 'i', 'o', 'n'] = "description") from rfl,
    show (∀ s : String, String.mk s.toList = s) from fun _ => rfl]

/-- Unmarshal of the canonical encoding at the JSON level: the whole
marshalled line parses to the three-key object. -/
theorem parseJsonList_marshalBook (b : Book) :
    parseJsonList (marshalBook b) = some (bookJson b) := by
  rw [parseJsonList, parseValue, parseCore_marshalBook b (marshalBook b).length]
  simp [skipWs]

/-- Decoding the three-key object fills the Book back in. -/
theorem decodeBook_bookJson (b : Book) : decodeBook (bookJson b) = some b := by
  simp [bookJson, decodeBook, decodeBookFields, setField, foldEq]

/-- decodeBookInto on the three-key object also restores the Book,
whatever value it starts from: every field is overwritten. -/
theorem decodeBookInto_bookJson (b0 b : Book) : decodeBookInto b0 (bookJson b) = some b := by
  simp [bookJson, decodeBookInto, decodeBookFields, setField, foldEq]

theorem loadLoop_oracle_indep (o1 o2 : Nat → BulkItemOutcome) :
    ∀ (lines : List (List Char)) (i : Nat),
      (loadLoop o1 i lines).1 = (loadLoop o2 i lines).1 ∧
      (loadLoop o1 i lines).2.2 = (loadLoop o2 i lines).2.2 := by
  intro lines
  induction lines with
  | nil => intro i; simp [loadLoop]
  | cons l rest ih =>
    intro i
    cases hu : unmarshalBook l with
    | none => simp [loadLoop, hu]
    | some b => simp [loadLoop, hu, (ih (i + 1)).1, (ih (i + 1)).2]

theorem loadLoop_logs (o : Nat → BulkItemOutcome) :
    ∀ (lines : List (List Char)) (i : Nat),
      (loadLoop o i lines).2.1 =
        ((List.range (loadLoop o i lines).1.length).map (fun j => onFailureLog (o (i + j)))).flatten := by
  intro lines
  induction lines with
  | nil => intro i; simp [loadLoop]
  | cons l rest ih =>
    intro i
    cases hu : unmarshalBook l with
    | none => simp [loadLoop, hu]
    | some b =>
      simp only [loadLoop, hu, List.length_cons, List.range_succ_eq_map, List.map_cons,
        List.map_map, List.flatten_cons, Nat.add_zero]
      rw [ih (i + 1)]
      congr 2
      apply List.map_congr_left
      intro j hj
      have hij : i + 1 + j = i + (j + 1) := by omega
      simp [Function.comp, hij]

theorem loadLoop_all_ok (o : Nat → BulkItemOutcome) :
    ∀ (lines : List (List Char)) (i : Nat),
      (∀ l ∈ lines, (unmarshalBook l).isSome = true) →
      (loadLoop o i lines).1 = lines.filterMap (fun l => (unmarshalBook l).map marshalBook) ∧
      (loadLoop o i lines).2.2 = none := by
  intro lines
  induction lines with
  | nil => intro i _; simp [loadLoop]
  | cons l rest ih =>
    intro i h
    have hl := h l (by simp)
    cases hu : unmarshalBook l with
    | none => rw [hu] at hl; simp at hl
    | some b =>
      have hr := ih (i + 1) (fun x hx => h x (by simp [hx]))
      simp [loadLoop, hu, hr.1, hr.2]

theorem loadLoop_fail (o : Nat → BulkItemOutcome) :
    ∀ (lines : List (List Char)) (i k : Nat), k < lines.length →
      (∀ j, j < k → (unmarshalBook (lines.getD j [])).isSome = true) →
      unmarshalBook (lines.getD k []) = none →
      (loadLoop o i lines).1 =
        (lines.take k).filterMap (fun l => (unmarshalBook l).map marshalBook) ∧
      (loadLoop o i lines).2.2 = some (i + k) := by
  intro lines
  induction lines with
  | nil => intro i k hk; simp at hk
  | cons l rest ih =>
    intro i k hk hbefore hfail
    cases k with
    | zero =>
      simp only [List.getD_cons_zero] at hfail
      simp [loadLoop, hfail]
    | succ k =>
      have hl := hbefore 0 (by omega)
      simp only [List.getD_cons_zero] at hl
      cases hu : unmarshalBook l with
      | none => rw [hu] at hl; simp at hl
      | some b =>
        simp only [List.getD_cons_succ] at hfail
        have hrest := ih (i + 1) k (by simpa using hk)
          (fun j hj => by
            have := hbefore (j + 1) (by omega)
            simpa using this) hfail
        refine ⟨?_, ?_⟩
        · simp [loadLoop, hu, hrest.1]
        · simp only [loadLoop, hu]
          rw [hrest.2]
          congr 1
          omega

theorem splitLines_noNL :
    ∀ (t : List Char), (∀ c ∈ t, ¬ c = '\n') → (splitLines t).1 = [] := by
  intro t
  induction t with
  | nil => intro _; simp [splitLines]
  | cons c cs ih =>
    intro h
    have hc : ¬ c = '\n' := h c (by simp)
    have hrest := ih (fun x hx => h x (by simp [hx]))
    simp only [splitLines, hc, if_false]
    rw [hrest]

theorem splitLines_append_noNL :
    ∀ (cs tail : List Char), (∀ c ∈ tail, ¬ c = '\n') →
      (splitLines (cs ++ tail)).1 = (splitLines cs).1 := by
  intro cs tail h
  induction cs with
  | nil => simp [splitLines_noNL tail h, splitLines]
  | cons c cs2 ih =>
    simp only [List.cons_append, splitLines, List.append_eq]
    rw [ih]
    by_cases hc : c = '\n'
    · simp [hc]
    · simp only [hc, if_false]
      cases hL : (splitLines cs2).1 <;> simp

theorem filterMap_length_all_some :
    ∀ (lines : List (List Char)),
      (∀ l ∈ lines, (unmarshalBook l).isSome = true) →
      (lines.filterMap (fun l => (unmarshalBook l).map marshalBook)).length = lines.length := by
  intro lines
  induction lines with
  | nil => intro _; simp
  | cons l rest ih =>
    intro h
    have hl := h l (by simp)
    cases hu : unmarshalBook l with
    | none => rw [hu] at hl; simp at hl
    | some b =>
      have := ih (fun x hx => h x (by simp [hx]))
      simp [List.filterMap_cons, hu, this]

theorem take_all_some :
    ∀ (lines : List (List Char)) (k : Nat),
      (∀ j, j < k → (unmarshalBook (lines.getD j [])).isSome = true) →
      ∀ l ∈ lines.take k, (unmarshalBook l).isSome = true := by
  intro lines
  induction lines with
  | nil => intro k _ l hl; simp at hl
  | cons x rest ih =>
    intro k h l hl
    cases k with
    | zero => simp at hl
    | succ k =>
      simp only [List.take_succ_cons, List.mem_cons] at hl
      rcases hl with rfl | hl
      · have := h 0 (by omega)
        simpa using this
      · exact ih k (fun j hj => by
          have := h (j + 1) (by omega)
          simpa using this) l hl

/-- C1: if the index-creation request reports an error (such as the
index already existing, or the schema being rejected), the loader
exits on a non-completed fatal path before any bulk-write attempt:
no record from the input file is submitted. -/
theorem claim_C1_index_create_error_fatal (inp : LoaderInput) (e : String)
    (h : inp.createIndexError = some e) :
    (runLoader inp).submitted = [] ∧ (runLoader inp).result ≠ LoadResult.completed := by
  unfold runLoader
  cases henv : inp.envLoadOk <;> cases hcl : inp.clientOk <;> simp [henv, hcl, h]

theorem claim_C1_witness :
    (runLoader (LoaderInput.mk true true (some "resource_already_exists_exception") true
      "\x7b\"title\":\"x\",\"url\":\"u\",\"description\":\"d\"\x7d\n".toList
      (fun _ => BulkItemOutcome.success) true)).submitted = [] ∧
    (runLoader (LoaderInput.mk true true (some "resource_already_exists_exception") true
      "\x7b\"title\":\"x\",\"url\":\"u\",\"description\":\"d\"\x7d\n".toList
      (fun _ => BulkItemOutcome.success) true)).result ≠ LoadResult.completed :=
  claim_C1_index_create_error_fatal _ "resource_already_exists_exception" rfl

/-- C3: if line k of the input is the first malformed line (all lines
before it decode), the loader ends with a fatal decode error at line
k; exactly the records of the lines before k have been submitted, and
nothing at or beyond line k is submitted. -/
theorem claim_C3_malformed_line_aborts (inp : LoaderInput) (k : Nat)
    (henv : inp.envLoadOk = true) (hcl : inp.clientOk = true)
    (hci : inp.createIndexError = none) (hfo : inp.fileOpenOk = true)
    (hk : k < (splitLines inp.fileContents).1.length)
    (hbefore : ∀ j, j < k →
      (unmarshalBook ((splitLines inp.fileContents).1.getD j [])).isSome = true)
    (hfail : unmarshalBook ((splitLines inp.fileContents).1.getD k []) = none) :
    (runLoader inp).result = LoadResult.fatalDecode k ∧
    (runLoader inp).submitted =
      ((splitLines inp.fileContents).1.take k).filterMap
        (fun l => (unmarshalBook l).map marshalBook) := by
  have hfl := loadLoop_fail inp.itemOutcome (splitLines inp.fileContents).1 0 k hk hbefore hfail
  unfold runLoader
  simp [henv, hcl, hci, hfo, hfl.1, hfl.2]

theorem claim_C3_witness :
    (runLoader (LoaderInput.mk true true none true
      ("\x7b\"title\":\"a\",\"url\":\"u\",\"description\":\"d\"\x7d\nBAD\n\x7b\"title\":\"b\",\"url\":\"v\",\"description\":\"e\"\x7d\n").toList
      (fun _ => BulkItemOutcome.success) true)).result = LoadResult.fatalDecode 1 ∧
    (runLoader (LoaderInput.mk true true none true
      ("\x7b\"title\":\"a\",\"url\":\"u\",\"description\":\"d\"\x7d\nBAD\n\x7b\"title\":\"b\",\"url\":\"v\",\"description\":\"e\"\x7d\n").toList
      (fun _ => BulkItemOutcome.success) true)).submitted =
      (((splitLines ((LoaderInput.mk true true none true
      ("\x7b\"title\":\"a\",\"url\":\"u\",\"description\":\"d\"\x7d\nBAD\n\x7b\"title\":\"b\",\"url\":\"v\",\"description\":\"e\"\x7d\n").toList
      (fun _ => BulkItemOutcome.success) true).fileContents)).1.take 1).filterMap
        (fun l => (unmarshalBook l).map marshalBook)) :=
  claim_C3_malformed_line_aborts _ 1 rfl rfl rfl rfl (by decide) (by decide) (by decide)

/-- C4: when every complete input line decodes, the submitted bulk
bodies are exactly the canonical encodings of the decoded records in
order, their count equals the line count, and each body parses back
as a JSON object with exactly the keys title, url and description
(whatever extra keys the input lines carried). -/
theorem claim_C4_all_records_submitted (inp : LoaderInput)
    (henv : inp.envLoadOk = true) (hcl : inp.clientOk = true)
    (hci : inp.createIndexError = none) (hfo : inp.fileOpenOk = true)
    (hall : ∀ l ∈ (splitLines inp.fileContents).1, (unmarshalBook l).isSome = true) :
    (runLoader inp).submitted =
      (splitLines inp.fileContents).1.filterMap
        (fun l => (unmarshalBook l).map marshalBook) ∧
    (runLoader inp).submitted.length = (splitLines inp.fileContents).1.length ∧
    ∀ body ∈ (runLoader inp).submitted, ∃ b : Book,
      body = marshalBook b ∧ parseJsonList body = some (bookJson b) := by
  have hok := loadLoop_all_ok inp.itemOutcome (splitLines inp.fileContents).1 0 hall
  have hsub : (runLoader inp).submitted =
      (splitLines inp.fileContents).1.filterMap
        (fun l => (unmarshalBook l).map marshalBook) := by
    unfold runLoader
    cases hco : inp.closeOk <;> simp [henv, hcl, hci, hfo, hco, hok.1, hok.2]
  refine ⟨hsub, ?_, ?_⟩
  · rw [hsub]
    exact filterMap_length_all_some _ hall
  · intro body hbody
    rw [hsub] at hbody
    simp only [List.mem_filterMap] at hbody
    obtain ⟨l, hl, hmap⟩ := hbody
    cases hu : unmarshalBook l with
    | none => rw [hu] at hmap; simp at hmap
    | some b =>
      rw [hu] at hmap
      simp at hmap
      exact ⟨b, hmap.symm, by rw [← hmap]; exact parseJsonList_marshalBook b⟩

theorem claim_C4_witness :
    (runLoader (LoaderInput.mk true true none true
      ("\x7b\"title\":\"a\",\"url\":\"u\",\"description\":\"d\",\"pages\":3\x7d\n\x7b\"title\":\"b\",\"url\":\"v\",\"description\":\"e\"\x7d\n").toList
      (fun _ => BulkItemOutcome.success) true)).submitted =
      (splitLines ((LoaderInput.mk true true none true
      ("\x7b\"title\":\"a\",\"url\":\"u\",\"description\":\"d\",\"pages\":3\x7d\n\x7b\"title\":\"b\",\"url\":\"v\",\"description\":\"e\"\x7d\n").toList
      (fun _ => BulkItemOutcome.success) true).fileContents)).1.filterMap
        (fun l => (unmarshalBook l).map marshalBook) ∧
    (runLoader (LoaderInput.mk true true none true
      ("\x7b\"title\":\"a\",\"url\":\"u\",\"description\":\"d\",\"pages\":3\x7d\n\x7b\"title\":\"b\",\"url\":\"v\",\"description\":\"e\"\x7d\n").toList
      (fun _ => BulkItemOutcome.success) true)).submitted.length =
      (splitLines ((LoaderInput.mk true true none true
      ("\x7b\"title\":\"a\",\"url\":\"u\",\"description\":\"d\",\"pages\":3\x7d\n\x7b\"title\":\"b\",\"url\":\"v\",\"description\":\"e\"\x7d\n").toList
      (fun _ => BulkItemOutcome.success) true).fileContents)).1.length ∧
    ∀ body ∈ (runLoader (LoaderInput.mk true true none true
      ("\x7b\"title\":\"a\",\"url\":\"u\",\"description\":\"d\",\"pages\":3\x7d\n\x7b\"title\":\"b\",\"url\":\"v\",\"description\":\"e\"\x7d\n").toList
      (fun _ => BulkItemOutcome.success) true)).submitted, ∃ b : Book,
      body = marshalBook b ∧ parseJsonList body = some (bookJson b) :=
  claim_C4_all_records_submitted _ rfl rfl rfl rfl (by decide)

/-- C5: per-item failures reported by the bulk-write subsystem are
logged with their record-level detail and never change the control
flow: the submitted bodies and the final result are identical to a
run with no per-item failures, and the failure log holds exactly one
entry per failed item, in submission order. -/
theorem claim_C5_per_item_failures_nonfatal (inp : LoaderInput) :
    ((runLoader { inp with itemOutcome := fun _ => BulkItemOutcome.success }).submitted
        = (runLoader inp).submitted ∧
      (runLoader { inp with itemOutcome := fun _ => BulkItemOutcome.success }).result
        = (runLoader inp).result) ∧
    (runLoader inp).failureLogs =
      ((List.range (runLoader inp).submitted.length).map
        (fun j => onFailureLog (inp.itemOutcome j))).flatten := by
  have hind := loadLoop_oracle_indep (fun _ => BulkItemOutcome.success) inp.itemOutcome
    (splitLines inp.fileContents).1 0
  have hlogs := loadLoop_logs inp.itemOutcome (splitLines inp.fileContents).1 0
  unfold runLoader
  cases henv : inp.envLoadOk <;> cases hcl : inp.clientOk <;>
    cases hci : inp.createIndexError <;> cases hfo : inp.fileOpenOk <;>
      simp only [henv, hcl, hci, hfo] <;> simp
  · rw [hind.1, hind.2]
    cases hfail : (loadLoop inp.itemOutcome 0 (splitLines inp.fileContents).1).2.2 with
    | none =>
      cases hco : inp.closeOk <;> simp [hfail, hco, hlogs, Nat.zero_add]
    | some k => simp [hfail, hlogs, Nat.zero_add]

/-- C9: a final input chunk not terminated by a newline is silently
ignored at end of file: appending such a chunk to any input leaves
the entire observable run (result, submitted bodies, logs)
unchanged, so the unterminated record is never decoded or
submitted. -/
theorem claim_C9_unterminated_tail_ignored (inp : LoaderInput) (tail : List Char)
    (h : ∀ c ∈ tail, ¬ c = '\n') :
    runLoader { inp with fileContents := inp.fileContents ++ tail } = runLoader inp := by
  have hl := splitLines_append_noNL inp.fileContents tail h
  simp [runLoader, hl]

theorem claim_C9_witness :
    runLoader { (LoaderInput.mk true true none true
        ("\x7b\"title\":\"a\",\"url\":\"u\",\"description\":\"d\"\x7d\n").toList
        (fun _ => BulkItemOutcome.success) true) with
      fileContents := ("\x7b\"title\":\"a\",\"url\":\"u\",\"description\":\"d\"\x7d\n").toList
        ++ ("\x7b\"title\":\"tail-record\",\"url\":").toList } =
    runLoader (LoaderInput.mk true true none true
      ("\x7b\"title\":\"a\",\"url\":\"u\",\"description\":\"d\"\x7d\n").toList
      (fun _ => BulkItemOutcome.success) true) :=
  claim_C9_unterminated_tail_ignored _ _ (by decide)

/-- C10: a blank input line (a bare newline) at position k, with all
earlier lines well formed, aborts the loader with a fatal decode
error at line k: the empty line is not a JSON document; exactly the
k earlier records are submitted and nothing after the blank line
ever is. -/
theorem claim_C10_blank_line_fatal (inp : LoaderInput) (k : Nat)
    (henv : inp.envLoadOk = true) (hcl : inp.clientOk = true)
    (hci : inp.createIndexError = none) (hfo : inp.fileOpenOk = true)
    (hk : k < (splitLines inp.fileContents).1.length)
    (hbefore : ∀ j, j < k →
      (unmarshalBook ((splitLines inp.fileContents).1.getD j [])).isSome = true)
    (hblank : (splitLines inp.fileContents).1.getD k [] = ['\n']) :
    (runLoader inp).result = LoadResult.fatalDecode k ∧
    (runLoader inp).submitted =
      ((splitLines inp.fileContents).1.take k).filterMap
        (fun l => (unmarshalBook l).map marshalBook) ∧
    (runLoader inp).submitted.length = k := by
  have hfail : unmarshalBook ((splitLines inp.fileContents).1.getD k []) = none := by
    rw [hblank]
    decide
  have hfl := loadLoop_fail inp.itemOutcome (splitLines inp.fileContents).1 0 k hk hbefore hfail
  have hres : (runLoader inp).result = LoadResult.fatalDecode k ∧
      (runLoader inp).submitted =
        ((splitLines inp.fileContents).1.take k).filterMap
          (fun l => (unmarshalBook l).map marshalBook) := by
    unfold runLoader
    simp [henv, hcl, hci, hfo, hfl.1, hfl.2]
  refine ⟨hres.1, hres.2, ?_⟩
  rw [hres.2]
  have htk := take_all_some (splitLines inp.fileContents).1 k hbefore
  rw [filterMap_length_all_some _ htk]
  simp [List.length_take]
  omega

theorem claim_C10_witness :
    (runLoader (LoaderInput.mk true true none true
      ("\x7b\"title\":\"a\",\"url\":\"u\",\"description\":\"d\"\x7d\n\n\x7b\"title\":\"b\",\"url\":\"v\",\"description\":\"e\"\x7d\n").toList
      (fun _ => BulkItemOutcome.success) true)).result = LoadResult.fatalDecode 1 ∧
    (runLoader (LoaderInput.mk true true none true
      ("\x7b\"title\":\"a\",\"url\":\"u\",\"description\":\"d\"\x7d\n\n\x7b\"title\":\"b\",\"url\":\"v\",\"description\":\"e\"\x7d\n").toList
      (fun _ => BulkItemOutcome.success) true)).submitted =
      (((splitLines ((LoaderInput.mk true true none true
      ("\x7b\"title\":\"a\",\"url\":\"u\",\"description\":\"d\"\x7d\n\n\x7b\"title\":\"b\",\"url\":\"v\",\"description\":\"e\"\x7d\n").toList
      (fun _ => BulkItemOutcome.success) true).fileContents)).1.take 1).filterMap
        (fun l => (unmarshalBook l).map marshalBook)) ∧
    (runLoader (LoaderInput.mk true true none true
      ("\x7b\"title\":\"a\",\"url\":\"u\",\"description\":\"d\"\x7d\n\n\x7b\"title\":\"b\",\"url\":\"v\",\"description\":\"e\"\x7d\n").toList
      (fun _ => BulkItemOutcome.success) true)).submitted.length = 1 :=
  claim_C10_blank_line_fatal _ 1 rfl rfl rfl rfl (by decide) (by decide) (by decide)

/-- C6: an empty (or defaulted, hence missing) query flag makes the
searcher exit on the usage-error path before the environment is read
or any request is built; every non-empty query, with startup
succeeding, reaches the submission of the multi-match request
body. -/
theorem claim_C6_empty_query_rejected (q : String) (envLoadOk clientOk : Bool) :
    (q = "" → runSearch q envLoadOk clientOk = SearchStage.usageError) ∧
    (¬ q = "" → envLoadOk = true → clientOk = true →
      runSearch q envLoadOk clientOk = SearchStage.submitted (searchQueryBody q)) := by
  constructor
  · intro h
    simp [runSearch, h]
  · intro h he hc
    simp [runSearch, h, he, hc]

theorem claim_C6_witness :
    runSearch "" true true = SearchStage.usageError ∧
    runSearch "dogs" true true = SearchStage.submitted (searchQueryBody "dogs") :=
  ⟨(claim_C6_empty_query_rejected "" true true).1 rfl,
   (claim_C6_empty_query_rejected "dogs" true true).2 (by decide) rfl rfl⟩

set_option maxRecDepth 40000 in
/-- C2 is false of the code: the searcher substitutes the raw query
into the request template with no escaping, so the query a"b (one
double quote inside) is submitted as a request body that is not
well-formed JSON; the parser of the JSON grammar rejects it. -/
theorem claim_C2_raw_query_malformed_body :
    runSearch "a\"b" true true = SearchStage.submitted (searchQueryBody "a\"b") ∧
    parseJsonString (searchQueryBody "a\"b") = none :=
  ⟨rfl, rfl⟩

/-- C8: a Book decoded from any input line, re-encoded by the loader
and decoded again from the parsed _source object the way the searcher
fills its Book field, yields the same three field values. -/
theorem claim_C8_roundtrip (line : List Char) (b : Book)
    (_h : unmarshalBook line = some b) :
    (parseJsonList (marshalBook b)).bind decodeBook = some b := by
  rw [parseJsonList_marshalBook]
  simpa [Option.bind] using decodeBook_bookJson b

theorem claim_C8_witness :
    (parseJsonList (marshalBook (Book.mk "T" "U" "D"))).bind decodeBook =
      some (Book.mk "T" "U" "D") :=
  claim_C8_roundtrip "\x7b\"title\":\"T\",\"url\":\"U\",\"description\":\"D\"\x7d".toList
    (Book.mk "T" "U" "D") (by decide)

/-- C7: for every response value that decodes, the searcher prints
exactly one line per hit, in hit order, each line of the form
title, url with score of score, the score rendered in fixed-point
notation with six fractional digits. -/
theorem claim_C7_one_line_per_hit (j : Json) (r : BookSearchResponse)
    (_h : decodeBookSearchResponse j = some r) :
    (printHits r).length = r.hits.hits.length ∧
    ∀ i : Nat, (printHits r)[i]? = (r.hits.hits[i]?).map
      (fun hit => hit.book.title ++ ", " ++ hit.book.url
        ++ " with score of " ++ formatFixed6 hit.score) := by
  constructor
  · simp [printHits]
  · intro i
    cases hx : r.hits.hits[i]? <;> simp [printHits, hx, formatHit]

theorem claim_C7_witness :
    (printHits (BookSearchResponse.mk 5 (BookHitList.mk
      [BookHit.mk (Book.mk "Dog Tales" "http://d" "dogs") (14 : ℚ),
       BookHit.mk (Book.mk "B" "u2" "x") (2 : ℚ)]))).length =
      (BookSearchResponse.mk 5 (BookHitList.mk
      [BookHit.mk (Book.mk "Dog Tales" "http://d" "dogs") (14 : ℚ),
       BookHit.mk (Book.mk "B" "u2" "x") (2 : ℚ)])).hits.hits.length ∧
    ∀ i : Nat, (printHits (BookSearchResponse.mk 5 (BookHitList.mk
      [BookHit.mk (Book.mk "Dog Tales" "http://d" "dogs") (14 : ℚ),
       BookHit.mk (Book.mk "B" "u2" "x") (2 : ℚ)])))[i]? =
      (((BookSearchResponse.mk 5 (BookHitList.mk
      [BookHit.mk (Book.mk "Dog Tales" "http://d" "dogs") (14 : ℚ),
       BookHit.mk (Book.mk "B" "u2" "x") (2 : ℚ)])).hits.hits)[i]?).map
      (fun hit => hit.book.title ++ ", " ++ hit.book.url
        ++ " with score of " ++ formatFixed6 hit.score) :=
  claim_C7_one_line_per_hit
    (Json.obj [("took", Json.num 5),
      ("hits", Json.obj [("hits", Json.arr
        [Json.obj [("_score", Json.num (14 : ℚ)),
          ("_source", Json.obj [("title", Json.str "Dog Tales"), ("url", Json.str "http://d"),
            ("description", Json.str "dogs")])],
         Json.obj [("_score", Json.num (2 : ℚ)),
          ("_source", Json.obj [("title", Json.str "B"), ("url", Json.str "u2"),
            ("description", Json.str "x")])]])])])
    _ (by decide)
